import Mathlib

/-!
Shallow embedding of `src/psiphon/remoteServerList.go` (psiphon-tunnel-core):
the remote-server-list synchronization engine.

The engine's external collaborators (resumable HTTP transport, zlib
decompression, authenticated-package verification, the `osl` directory
package, and the persistent key/value datastore) are not under `src/`; each
occurrence of such a collaborator is modelled as an environment-supplied
outcome, so every control-flow decision made by the Go code in
`remoteServerList.go` is reproduced here over arbitrary collaborator
behaviour.  Executions additionally record a trace of observable events
(fetch attempts, merges, ETag commits, unlock queries) so that ordering and
keying properties can be stated.
-/

namespace Psiphon

/-- Lookup in an association list of string keys.  The blank string is the
"not present" value, matching the datastore contract in which a missing key
yields a blank value rather than an error. -/
def getAssoc : List (String × String) → String → String
  | [], _ => ""
  | (k0, v0) :: rest, k => if k0 = k then v0 else getAssoc rest k

/-- Update (or insert) a key in an association list. -/
def setAssoc : List (String × String) → String → String → List (String × String)
  | [], k, v => [(k, v)]
  | (k0, v0) :: rest, k, v =>
    if k0 = k then (k, v) :: rest else (k0, v0) :: setAssoc rest k v

/-- Modelled from the spec: the persistent key/value store (spec §6) used for
per-URL ETags (`GetUrlETag`/`SetUrlETag`), the cached directory blob
(`GetKeyValue`/`SetKeyValue`), and the merged server-entry store
(`StoreServerEntries`); its implementation is not under `src/`.  `urlETags`
and `keyValues` map string keys to string values with blank meaning absent;
`serverEntries` is the list of entries merged so far, in merge order
(upsert-append, never deleting). -/
structure DataStore where
  urlETags : List (String × String)
  keyValues : List (String × String)
  serverEntries : List String
deriving Repr, DecidableEq

/-- The configuration fields of `Config` consumed by `remoteServerList.go`. -/
structure Config where
  remoteServerListUrl : String
  remoteServerListDownloadFilename : String
  remoteServerListSignaturePublicKey : String
  obfuscatedServerListRootURL : String
  obfuscatedServerListDownloadDirectory : String
deriving Repr, DecidableEq

/-- Modelled from the spec: the datastore key under which the parsed OSL
directory blob is cached (`DATA_STORE_OSL_DIRECTORY_KEY` in the Go client's
datastore; the constant's definition is not under `src/`, only its use). -/
def DATA_STORE_OSL_DIRECTORY_KEY : String := "oslDirectory"

/-- Modelled from the spec: `osl.GetOSLDirectoryURL` (not under `src/`)
derives the gated directory's URL deterministically from the gated-list root
URL (spec §4.5 step 1, §6 configuration). -/
def GetOSLDirectoryURL (rootURL : String) : String :=
  rootURL ++ "/osl-registry"

/-- Modelled from the spec: `osl.GetOSLFileURL` (not under `src/`) derives a
gated sub-resource's URL deterministically from the root URL and the
sub-resource identifier (spec §4.5 step 1). -/
def GetOSLFileURL (rootURL : String) (oslID : String) : String :=
  rootURL ++ "/osl-" ++ oslID ++ ".osl"

/-- Modelled from the spec: `osl.GetOSLDirectoryFilename` (not under `src/`),
the download destination path of the directory file. -/
def GetOSLDirectoryFilename (downloadDirectory : String) : String :=
  downloadDirectory ++ "/osl-registry"

/-- Modelled from the spec: `osl.GetOSLFilename` (not under `src/`), the
download destination path of one gated sub-resource file. -/
def GetOSLFilename (downloadDirectory : String) (oslID : String) : String :=
  downloadDirectory ++ "/osl-" ++ oslID ++ ".osl"

/-- The program point at which an ETag commit (`SetUrlETag`) is performed:
`FetchCommonRemoteServerList` line 80, the directory commit at line 174 of
`FetchObfuscatedServerLists`, or the per-sub-resource commit at line 247. -/
inductive CommitSite
  | commonList
  | oslDirectory
  | oslFile (oslID : String)
deriving Repr, DecidableEq

/-- Observable events of one synchronizer execution, in program order. -/
inductive Event
  /-- `downloadRemoteServerListFile` was invoked for this source URL. -/
  | fetchAttempt (sourceURL : String)
  /-- `storeServerEntries` succeeded for this payload (merge into entry store). -/
  | merged (payload : String)
  /-- `SetKeyValue(DATA_STORE_OSL_DIRECTORY_KEY, json)` succeeded. -/
  | directoryCached (json : String)
  /-- `SetUrlETag url etag` was attempted at the given site; `ok` records
  whether the store accepted it. -/
  | commitETag (site : CommitSite) (url : String) (etag : String) (ok : Bool)
  /-- `GetSeededOSLIDs` was invoked; `ids` is the returned unlockable set and
  `errs` the errors it reported through the error sink. -/
  | queryUnlockable (ids : List String) (errs : List String)
  /-- A `NoticeAlert` observability message. -/
  | alert (msg : String)
deriving Repr, DecidableEq

/-- Collaborator outcomes for one call of `downloadRemoteServerListFile`:
whether `MakeDownloadHttpClient` succeeds, whether `GetUrlETag` succeeds, and
the outcome of `ResumeDownload` (`none` = transport error, `some r` = success
with response ETag `r`; spec §6 resumable transport). -/
structure FetchEnv where
  makeClientOk : Bool
  getETagOk : Bool
  resumeResult : Option String
deriving Repr, DecidableEq

/-- `downloadRemoteServerListFile` (lines 268-310): builds the HTTP client,
reads the stored ETag for `sourceURL`, performs the resumable download, and
returns blank when the response ETag equals the stored one, otherwise the
response ETag.  `none` is an error return. -/
def downloadRemoteServerListFile (env : FetchEnv) (st : DataStore)
    (sourceURL : String) : Option String :=
  if !env.makeClientOk then none
  else if !env.getETagOk then none
  else
    let lastETag := getAssoc st.urlETags sourceURL
    match env.resumeResult with
    | none => none
    | some responseETag =>
      if responseETag = lastETag then some ""
      else some responseETag

/-- Collaborator outcomes for one call of `unpackRemoteServerListFile`
(lines 315-342): file open, zlib decompression (yielding the data package
bytes), and `common.ReadAuthenticatedDataPackage` as a function of those
bytes. -/
structure UnpackEnv where
  openOk : Bool
  zlibResult : Option String
  readAuthenticatedDataPackage : String → Option String

/-- `unpackRemoteServerListFile` (lines 315-342): opens the file,
decompresses, and signature-verifies the data package; all-or-nothing. -/
def unpackRemoteServerListFile (env : UnpackEnv) : Option String :=
  if !env.openOk then none
  else
    match env.zlibResult with
    | none => none
    | some dataPackage => env.readAuthenticatedDataPackage dataPackage

/-- Collaborator outcomes for one call of `storeServerEntries`
(lines 344-362): `DecodeAndValidateServerEntryList` as a function of the
payload, and whether `StoreServerEntries` accepts the batch. -/
structure StoreEnv where
  decode : String → Option (List String)
  storeOk : Bool

/-- `storeServerEntries` (lines 344-362): decode/validate the payload and
merge the batch into the entry store (append, preserving existing entries).
`none` is an error return, leaving the store untouched. -/
def storeServerEntries (env : StoreEnv) (payload : String) (st : DataStore) :
    Option DataStore :=
  match env.decode payload with
  | none => none
  | some entries =>
    if env.storeOk then
      some { st with serverEntries := st.serverEntries ++ entries }
    else none

/-- Environment of one `FetchCommonRemoteServerList` execution. -/
structure CommonEnv where
  fetch : FetchEnv
  unpack : UnpackEnv
  store : StoreEnv
  setUrlETagOk : Bool

/-- `FetchCommonRemoteServerList` (lines 46-87): fetch the common list; on
transport error fail; when unchanged (blank new ETag) succeed with no further
work; otherwise unpack, merge, and finally attempt `SetUrlETag` for
`config.RemoteServerListUrl` — a commit failure there is logged only and the
call still succeeds.  Returns (updated store, event trace, success flag). -/
def FetchCommonRemoteServerList (cfg : Config) (env : CommonEnv)
    (st : DataStore) : DataStore × List Event × Bool :=
  let tr := [Event.fetchAttempt cfg.remoteServerListUrl]
  match downloadRemoteServerListFile env.fetch st cfg.remoteServerListUrl with
  | none => (st, tr, false)
  | some newETag =>
    if newETag = "" then (st, tr, true)
    else
      match unpackRemoteServerListFile env.unpack with
      | none => (st, tr, false)
      | some serverListPayload =>
        match storeServerEntries env.store serverListPayload st with
        | none => (st, tr, false)
        | some st1 =>
          let tr1 := tr ++ [Event.merged serverListPayload]
          if env.setUrlETagOk then
            ({ st1 with urlETags :=
                 setAssoc st1.urlETags cfg.remoteServerListUrl newETag },
             tr1 ++ [Event.commitETag CommitSite.commonList
                       cfg.remoteServerListUrl newETag true],
             true)
          else
            (st1,
             tr1 ++ [Event.commitETag CommitSite.commonList
                       cfg.remoteServerListUrl newETag false],
             true)

/-- Modelled from the spec: the parsed gated directory (`osl.Directory`, not
under `src/`).  It supports (a) the unlock query `GetSeededOSLIDs`, taking
the key-lookup function and returning the ordered unlockable identifiers
together with the errors it reported through the error-reporting sink, and
(b) the identifier-specific `UnpackOSL`, taking the key-lookup function, the
identifier, the file bytes and the public key (spec §6 gated directory
format). -/
structure Directory where
  getSeededOSLIDs : (String → String) → List String × List String
  unpackOSL : (String → String) → String → String → String → Option String

/-- Collaborator outcomes for one gated sub-resource iteration of the loop at
lines 199-254: the download, the file read, and the merge/commit outcomes.
(Unpacking goes through the directory's `unpackOSL` capability.) -/
structure OslFileEnv where
  fetch : FetchEnv
  readFileResult : Option String
  store : StoreEnv
  setUrlETagOk : Bool

/-- Collaborator outcomes for one `FetchObfuscatedServerLists` execution. -/
structure OslEnv where
  dirFetch : FetchEnv
  dirReadFileResult : Option String
  unpackDirectory : String → Option (Directory × String)
  setKeyValueOk : Bool
  setDirETagOk : Bool
  getKeyValueOk : Bool
  loadDirectory : String → Option Directory
  getSLOK : String → String
  files : String → OslFileEnv

/-- Outcome of the fresh-directory phase, lines 119-153 of
`FetchObfuscatedServerLists`.  `clean` is the case `!failed && newETag != ""`
(download succeeded with a changed ETag, and read, unpack and cache-persist
all succeeded); `fallbackWith` is the complementary case
`failed || newETag == ""`, carrying the `failed` flag as set by those
lines. -/
inductive FreshOutcome
  | clean (st : DataStore) (tr : List Event) (newETag : String)
      (dir : Directory)
  | fallbackWith (st : DataStore) (tr : List Event) (failed : Bool)

/-- Lines 119-153 of `FetchObfuscatedServerLists`: download the directory
(failure sets `failed`); when changed, read the file, unpack/verify it, and
persist the parsed JSON under `DATA_STORE_OSL_DIRECTORY_KEY`; any of those
failures sets `failed`.  The classification into `clean`/`fallbackWith`
mirrors the guards `!failed && newETag != ""` (line 173) and
`failed || newETag == ""` (line 155). -/
def freshDirectoryStep (cfg : Config) (env : OslEnv) (st : DataStore) :
    FreshOutcome :=
  let downloadURL := GetOSLDirectoryURL cfg.obfuscatedServerListRootURL
  let tr := [Event.fetchAttempt downloadURL]
  match downloadRemoteServerListFile env.dirFetch st downloadURL with
  | none => FreshOutcome.fallbackWith st tr true
  | some newETag =>
    if newETag = "" then FreshOutcome.fallbackWith st tr false
    else
      match env.dirReadFileResult with
      | none => FreshOutcome.fallbackWith st tr true
      | some fileContent =>
        match env.unpackDirectory fileContent with
        | none => FreshOutcome.fallbackWith st tr true
        | some (dir, oslDirectoryJSON) =>
          if env.setKeyValueOk then
            FreshOutcome.clean
              { st with keyValues :=
                  (setAssoc st.keyValues DATA_STORE_OSL_DIRECTORY_KEY
                    oslDirectoryJSON) }
              (tr ++ [Event.directoryCached oslDirectoryJSON])
              newETag dir
          else FreshOutcome.fallbackWith st tr true

/-- One iteration of the gated sub-resource loop (lines 199-254) for
identifier `oslID`: fetch (continue on error or on unchanged), read, unpack
via the directory capability, merge, and attempt the ETag commit — which the
code performs, as at line 247, under `config.RemoteServerListUrl`, and whose
failure sets `failed`.  Returns (store, events, failed-this-iteration). -/
def processOSLFile (cfg : Config) (dir : Directory)
    (lookupSLOKs : String → String) (fenv : OslFileEnv) (oslID : String)
    (st : DataStore) : DataStore × List Event × Bool :=
  let downloadURL := GetOSLFileURL cfg.obfuscatedServerListRootURL oslID
  let tr := [Event.fetchAttempt downloadURL]
  match downloadRemoteServerListFile fenv.fetch st downloadURL with
  | none => (st, tr, true)
  | some newETag =>
    if newETag = "" then (st, tr, false)
    else
      match fenv.readFileResult with
      | none => (st, tr, true)
      | some fileContent =>
        match dir.unpackOSL lookupSLOKs oslID fileContent
            cfg.remoteServerListSignaturePublicKey with
        | none => (st, tr, true)
        | some serverListPayload =>
          match storeServerEntries fenv.store serverListPayload st with
          | none => (st, tr, true)
          | some st1 =>
            let tr1 := tr ++ [Event.merged serverListPayload]
            if fenv.setUrlETagOk then
              ({ st1 with urlETags :=
                   setAssoc st1.urlETags cfg.remoteServerListUrl newETag },
               tr1 ++ [Event.commitETag (CommitSite.oslFile oslID)
                         cfg.remoteServerListUrl newETag true],
               false)
            else
              (st1,
               tr1 ++ [Event.commitETag (CommitSite.oslFile oslID)
                         cfg.remoteServerListUrl newETag false],
               true)

/-- The whole loop at lines 199-254: process every unlockable identifier in
order, threading the store and or-accumulating the per-iteration `failed`
flags; every failure `continue`s to the next identifier. -/
def processOSLFiles (cfg : Config) (dir : Directory)
    (lookupSLOKs : String → String) (env : OslEnv) :
    List String → DataStore → DataStore × List Event × Bool
  | [], st => (st, [], false)
  | oslID :: rest, st =>
    let step := processOSLFile cfg dir lookupSLOKs (env.files oslID) oslID st
    let next := processOSLFiles cfg dir lookupSLOKs env rest step.1
    (next.1, step.2.1 ++ next.2.1, step.2.2 || next.2.2)

/-- Result of `FetchObfuscatedServerLists`: success, the fatal error of
line 162 (no cached directory), the fatal error of line 167 (cached
directory fails to load), or the aggregate error of line 257. -/
inductive OslResult
  | success
  | cacheMissError
  | loadDirectoryError
  | aggregateError
deriving Repr, DecidableEq

/-- Lines 181-259: recompute the unlockable set via `GetSeededOSLIDs`
(passing the key-lookup function; sink errors are logged as alerts), run the
sub-resource loop, and return the aggregate error iff `failed` was set at
any point. -/
def finishWithDirectory (cfg : Config) (env : OslEnv) (st : DataStore)
    (tr : List Event) (failed : Bool) (dir : Directory) :
    DataStore × List Event × OslResult :=
  let lookupSLOKs := env.getSLOK
  let queried := dir.getSeededOSLIDs lookupSLOKs
  let oslIDs := queried.1
  let tr1 := tr ++ (queried.2.map Event.alert)
              ++ [Event.queryUnlockable oslIDs queried.2]
  let looped := processOSLFiles cfg dir lookupSLOKs env oslIDs st
  (looped.1, tr1 ++ looped.2.1,
   if failed || looped.2.2 then OslResult.aggregateError
   else OslResult.success)

/-- `FetchObfuscatedServerLists` (lines 100-260): run the fresh-directory
phase; on the clean path commit the directory ETag — which the code performs,
as at line 174, under `config.RemoteServerListUrl`, a commit failure being
logged only — and proceed; otherwise take the fallback path (lines 155-169):
load the cached directory blob, failing fatally when the lookup errors or
yields a blank blob, or when `LoadDirectory` fails; then always recompute the
unlockable set and process every sub-resource. -/
def FetchObfuscatedServerLists (cfg : Config) (env : OslEnv)
    (st0 : DataStore) : DataStore × List Event × OslResult :=
  match freshDirectoryStep cfg env st0 with
  | FreshOutcome.clean st tr newETag oslDirectory =>
    if env.setDirETagOk then
      finishWithDirectory cfg env
        { st with urlETags :=
            (setAssoc st.urlETags cfg.remoteServerListUrl newETag) }
        (tr ++ [Event.commitETag CommitSite.oslDirectory
                  cfg.remoteServerListUrl newETag true])
        false oslDirectory
    else
      finishWithDirectory cfg env st
        (tr ++ [Event.commitETag CommitSite.oslDirectory
                  cfg.remoteServerListUrl newETag false])
        false oslDirectory
  | FreshOutcome.fallbackWith st tr failed =>
    if !env.getKeyValueOk then (st, tr, OslResult.cacheMissError)
    else
      let oslDirectoryJSON := getAssoc st.keyValues DATA_STORE_OSL_DIRECTORY_KEY
      if oslDirectoryJSON = "" then (st, tr, OslResult.cacheMissError)
      else
        match env.loadDirectory oslDirectoryJSON with
        | none => (st, tr, OslResult.loadDirectoryError)
        | some oslDirectory =>
          finishWithDirectory cfg env st tr failed oslDirectory

/-! ### Concrete fixtures

A small configuration, store and collaborator environments used to evaluate
the synchronizers at concrete inputs. -/

/-- A concrete configuration: the common list and the gated root live at
distinct URLs. -/
def cfg0 : Config :=
  { remoteServerListUrl := "https://common.example/list"
    remoteServerListDownloadFilename := "remote_server_list"
    remoteServerListSignaturePublicKey := "PUBKEY"
    obfuscatedServerListRootURL := "https://osl.example"
    obfuscatedServerListDownloadDirectory := "osl-downloads" }

/-- A fetch environment whose transport succeeds with response ETag `r`. -/
def okFetch (r : String) : FetchEnv :=
  { makeClientOk := true, getETagOk := true, resumeResult := some r }

/-- A parsed directory advertising no unlockable sub-resource. -/
def emptyDir : Directory :=
  { getSeededOSLIDs := fun _ => ([], []), unpackOSL := fun _ _ _ _ => none }

/-- A parsed directory advertising the single unlockable identifier `ab`,
whose file unpacks to the payload `payload`. -/
def oneDir : Directory :=
  { getSeededOSLIDs := fun _ => (["ab"], [])
    unpackOSL := fun _ _ _ _ => some "payload" }

/-- The initial store: the common list's URL already has stored ETag `a1`;
no cached directory; no entries. -/
def st0 : DataStore :=
  { urlETags := [("https://common.example/list", "a1")]
    keyValues := []
    serverEntries := [] }

/-- A sub-resource environment in which every step succeeds (response ETag
`e1`, the decoded batch being the payload itself). -/
def goodFile : OslFileEnv :=
  { fetch := okFetch "e1"
    readFileResult := some "filecontent"
    store := { decode := fun p => some [p], storeOk := true }
    setUrlETagOk := true }

/-- A gated environment in which the directory downloads fresh (ETag `d1`)
and parses to `emptyDir`; every collaborator succeeds. -/
def env1 : OslEnv :=
  { dirFetch := okFetch "d1"
    dirReadFileResult := some "dircontent"
    unpackDirectory := fun _ => some (emptyDir, "dirjson")
    setKeyValueOk := true
    setDirETagOk := true
    getKeyValueOk := true
    loadDirectory := fun _ => some emptyDir
    getSLOK := fun _ => ""
    files := fun _ => goodFile }

/-- Like `env1` but the directory advertises sub-resource `ab`, whose every
step succeeds except the final `SetUrlETag`, which fails. -/
def env2 : OslEnv :=
  { env1 with
    unpackDirectory := fun _ => some (oneDir, "dirjson")
    files := fun _ => { goodFile with setUrlETagOk := false } }

/-- A gated environment in which the directory download reports unchanged
(response ETag equal to the stored blank ETag). -/
def env3 : OslEnv :=
  { env1 with dirFetch := okFetch "" }

/-- Like `env1` but the directory advertises sub-resource `ab` with every
step succeeding, so both the directory and the sub-resource commit ETags. -/
def env4 : OslEnv :=
  { env1 with unpackDirectory := fun _ => some (oneDir, "dirjson") }

/-- A common-list environment in which the server responds with the already
stored ETag `a1` (unchanged). -/
def cenv1 : CommonEnv :=
  { fetch := okFetch "a1"
    unpack := { openOk := true, zlibResult := some "dp",
                readAuthenticatedDataPackage := fun _ => some "payload" }
    store := { decode := fun p => some [p], storeOk := true }
    setUrlETagOk := true }

/-- Like `cenv1` but the server responds with the changed ETag `b2`. -/
def cenv2 : CommonEnv :=
  { cenv1 with fetch := okFetch "b2" }

/-- The initial store of `st0` with a cached directory blob that is present
but blank. -/
def st1 : DataStore :=
  { st0 with keyValues := [(DATA_STORE_OSL_DIRECTORY_KEY, "")] }

/-! ### Helper lemmas -/

theorem getAssoc_setAssoc_self (l : List (String × String)) (k v : String) :
    getAssoc (setAssoc l k v) k = v := by
  induction l with
  | nil => simp [getAssoc, setAssoc]
  | cons hd tl ih =>
    obtain ⟨k0, v0⟩ := hd
    by_cases hk : k0 = k
    · simp [getAssoc, setAssoc, hk]
    · simp [getAssoc, setAssoc, hk, ih]

theorem getAssoc_setAssoc_other (l : List (String × String)) (k v k' : String)
    (h : k' ≠ k) : getAssoc (setAssoc l k v) k' = getAssoc l k' := by
  have hne : ¬ k = k' := fun he => h he.symm
  induction l with
  | nil =>
    simp only [setAssoc, getAssoc]
    rw [if_neg hne]
  | cons hd tl ih =>
    obtain ⟨k0, v0⟩ := hd
    by_cases hk : k0 = k
    · subst hk
      simp only [setAssoc, if_pos rfl, getAssoc]
      rw [if_neg hne, if_neg hne]
    · simp only [setAssoc, if_neg hk, getAssoc]
      by_cases hk' : k0 = k'
      · rw [if_pos hk', if_pos hk']
      · rw [if_neg hk', if_neg hk', ih]

/-- On every fallback outcome the fresh-directory phase has left the store
untouched and its trace holds exactly the directory fetch attempt. -/
theorem freshDirectoryStep_fallback_inv (cfg : Config) (env : OslEnv)
    (st st' : DataStore) (tr : List Event) (f : Bool)
    (h : freshDirectoryStep cfg env st = FreshOutcome.fallbackWith st' tr f) :
    st' = st ∧
    tr = [Event.fetchAttempt (GetOSLDirectoryURL cfg.obfuscatedServerListRootURL)] := by
  rw [freshDirectoryStep] at h
  rcases hdl : downloadRemoteServerListFile env.dirFetch st
      (GetOSLDirectoryURL cfg.obfuscatedServerListRootURL) with _ | t
  · rw [hdl] at h
    simp only [FreshOutcome.fallbackWith.injEq] at h
    exact ⟨h.1.symm, h.2.1.symm⟩
  · rw [hdl] at h
    dsimp only at h
    by_cases ht : t = ""
    · rw [if_pos ht] at h
      simp only [FreshOutcome.fallbackWith.injEq] at h
      exact ⟨h.1.symm, h.2.1.symm⟩
    · rw [if_neg ht] at h
      rcases hrd : env.dirReadFileResult with _ | fileContent
      · rw [hrd] at h
        simp only [FreshOutcome.fallbackWith.injEq] at h
        exact ⟨h.1.symm, h.2.1.symm⟩
      · rw [hrd] at h
        dsimp only at h
        rcases hup : env.unpackDirectory fileContent with _ | dj
        · rw [hup] at h
          simp only [FreshOutcome.fallbackWith.injEq] at h
          exact ⟨h.1.symm, h.2.1.symm⟩
        · obtain ⟨dir, oslDirectoryJSON⟩ := dj
          rw [hup] at h
          dsimp only at h
          by_cases hkv : env.setKeyValueOk
          · rw [if_pos hkv] at h
            exact FreshOutcome.noConfusion h
          · rw [if_neg hkv] at h
            simp only [FreshOutcome.fallbackWith.injEq] at h
            exact ⟨h.1.symm, h.2.1.symm⟩

/-- The fresh-directory phase ends cleanly exactly when the download
succeeds with a changed ETag and the read, unpack and cache-persist steps
all succeed. -/
theorem freshDirectoryStep_clean_iff (cfg : Config) (env : OslEnv)
    (st : DataStore) :
    (∃ st' tr e d, freshDirectoryStep cfg env st = FreshOutcome.clean st' tr e d) ↔
    (∃ t, downloadRemoteServerListFile env.dirFetch st
        (GetOSLDirectoryURL cfg.obfuscatedServerListRootURL) = some t ∧ t ≠ "" ∧
      ∃ c, env.dirReadFileResult = some c ∧
        (∃ d j, env.unpackDirectory c = some (d, j)) ∧
        env.setKeyValueOk = true) := by
  constructor
  · rintro ⟨st', tr, e, d, h⟩
    rw [freshDirectoryStep] at h
    rcases hdl : downloadRemoteServerListFile env.dirFetch st
        (GetOSLDirectoryURL cfg.obfuscatedServerListRootURL) with _ | t
    · rw [hdl] at h
      exact FreshOutcome.noConfusion h
    · rw [hdl] at h
      dsimp only at h
      by_cases ht : t = ""
      · rw [if_pos ht] at h
        exact FreshOutcome.noConfusion h
      · rw [if_neg ht] at h
        rcases hrd : env.dirReadFileResult with _ | c
        · rw [hrd] at h
          exact FreshOutcome.noConfusion h
        · rw [hrd] at h
          dsimp only at h
          rcases hup : env.unpackDirectory c with _ | dj
          · rw [hup] at h
            exact FreshOutcome.noConfusion h
          · obtain ⟨d0, j0⟩ := dj
            rw [hup] at h
            dsimp only at h
            by_cases hkv : env.setKeyValueOk = true
            · exact ⟨t, rfl, ht, c, rfl, ⟨d0, j0, hup⟩, hkv⟩
            · rw [if_neg hkv] at h
              exact FreshOutcome.noConfusion h
  · rintro ⟨t, hdl, ht, c, hrd, ⟨d0, j0, hup⟩, hkv⟩
    refine ⟨{ st with keyValues :=
        (setAssoc st.keyValues DATA_STORE_OSL_DIRECTORY_KEY j0) },
      [Event.fetchAttempt (GetOSLDirectoryURL cfg.obfuscatedServerListRootURL)]
        ++ [Event.directoryCached j0], t, d0, ?_⟩
    rw [freshDirectoryStep, hdl]
    dsimp only
    rw [if_neg ht, hrd]
    dsimp only
    rw [hup]
    dsimp only
    rw [if_pos hkv]

/-- A successful `storeServerEntries` call appends the decoded batch and
changes nothing else. -/
theorem storeServerEntries_some (env : StoreEnv) (payload : String)
    (st st' : DataStore) (h : storeServerEntries env payload st = some st') :
    ∃ entries, env.decode payload = some entries ∧
      st' = { st with serverEntries := st.serverEntries ++ entries } := by
  rw [storeServerEntries] at h
  rcases hdec : env.decode payload with _ | entries
  · rw [hdec] at h
    exact Option.noConfusion h
  · rw [hdec] at h
    dsimp only at h
    by_cases hok : env.storeOk = true
    · rw [if_pos hok] at h
      exact ⟨entries, rfl, (Option.some.injEq _ _ ▸ h).symm⟩
    · rw [if_neg hok] at h
      exact Option.noConfusion h

/-- Case analysis of one gated sub-resource iteration: either it leaves the
store untouched with a trace of exactly the fetch attempt, or it merged a
batch and attempted the ETag commit (under the common list's URL, as the
code does), succeeding or not. -/
theorem processOSLFile_cases (cfg : Config) (dir : Directory)
    (lookupSLOKs : String → String) (fenv : OslFileEnv) (oslID : String)
    (st : DataStore) :
    ((processOSLFile cfg dir lookupSLOKs fenv oslID st).1 = st ∧
      (processOSLFile cfg dir lookupSLOKs fenv oslID st).2.1 =
        [Event.fetchAttempt (GetOSLFileURL cfg.obfuscatedServerListRootURL oslID)]) ∨
    (∃ payload entries etag ok,
      (processOSLFile cfg dir lookupSLOKs fenv oslID st).1.urlETags =
        (if ok then setAssoc st.urlETags cfg.remoteServerListUrl etag
         else st.urlETags) ∧
      (processOSLFile cfg dir lookupSLOKs fenv oslID st).1.keyValues =
        st.keyValues ∧
      (processOSLFile cfg dir lookupSLOKs fenv oslID st).1.serverEntries =
        st.serverEntries ++ entries ∧
      (processOSLFile cfg dir lookupSLOKs fenv oslID st).2.2 = !ok ∧
      (processOSLFile cfg dir lookupSLOKs fenv oslID st).2.1 =
        [Event.fetchAttempt (GetOSLFileURL cfg.obfuscatedServerListRootURL oslID),
         Event.merged payload,
         Event.commitETag (CommitSite.oslFile oslID) cfg.remoteServerListUrl
           etag ok]) := by
  rw [processOSLFile]
  rcases hdl : downloadRemoteServerListFile fenv.fetch st
      (GetOSLFileURL cfg.obfuscatedServerListRootURL oslID) with _ | t
  · exact Or.inl ⟨rfl, rfl⟩
  · dsimp only
    by_cases ht : t = ""
    · rw [if_pos ht]
      exact Or.inl ⟨rfl, rfl⟩
    · rw [if_neg ht]
      rcases hrd : fenv.readFileResult with _ | c
      · exact Or.inl ⟨rfl, rfl⟩
      · dsimp only
        rcases hup : dir.unpackOSL lookupSLOKs oslID c
            cfg.remoteServerListSignaturePublicKey with _ | payload
        · exact Or.inl ⟨rfl, rfl⟩
        · dsimp only
          rcases hst : storeServerEntries fenv.store payload st with _ | st1
          · exact Or.inl ⟨rfl, rfl⟩
          · obtain ⟨entries, _, hshape⟩ :=
              storeServerEntries_some fenv.store payload st st1 hst
            subst hshape
            dsimp only
            by_cases hok : fenv.setUrlETagOk = true
            · rw [if_pos hok]
              exact Or.inr ⟨payload, entries, t, true, by simp⟩
            · rw [if_neg hok]
              exact Or.inr ⟨payload, entries, t, false, by simp⟩

/-- Every identifier in the processed list has its fetch attempted, whatever
the collaborator outcomes — in particular whatever failures earlier
identifiers suffered. -/
theorem processOSLFiles_attempts (cfg : Config) (dir : Directory)
    (lookupSLOKs : String → String) (env : OslEnv) (ids : List String)
    (st : DataStore) (oslID : String) (h : oslID ∈ ids) :
    Event.fetchAttempt (GetOSLFileURL cfg.obfuscatedServerListRootURL oslID) ∈
      (processOSLFiles cfg dir lookupSLOKs env ids st).2.1 := by
  induction ids generalizing st with
  | nil => cases h
  | cons hd tl ih =>
    rw [processOSLFiles]
    rcases List.mem_cons.mp h with heq | htl
    · subst heq
      apply List.mem_append_left
      rcases processOSLFile_cases cfg dir lookupSLOKs (env.files oslID) oslID st
        with ⟨_, htr⟩ | ⟨p, en, e, ok, _, _, _, _, htr⟩
      · rw [htr]
        exact List.mem_singleton.mpr rfl
      · rw [htr]
        exact List.mem_cons_self _ _
    · exact List.mem_append_right _ (ih _ htl)

/-- The sub-resource loop never deletes merged entries, never touches the
directory cache, and only changes a URL's stored ETag by a commit recorded
(with success) in its trace. -/
theorem processOSLFiles_notUndone (cfg : Config) (dir : Directory)
    (lookupSLOKs : String → String) (env : OslEnv) (ids : List String)
    (st : DataStore) :
    (∃ l, (processOSLFiles cfg dir lookupSLOKs env ids st).1.serverEntries =
        st.serverEntries ++ l) ∧
    (processOSLFiles cfg dir lookupSLOKs env ids st).1.keyValues =
      st.keyValues ∧
    (∀ url, getAssoc (processOSLFiles cfg dir lookupSLOKs env ids st).1.urlETags url =
        getAssoc st.urlETags url ∨
      ∃ s e, Event.commitETag s url e true ∈
          (processOSLFiles cfg dir lookupSLOKs env ids st).2.1 ∧
        getAssoc (processOSLFiles cfg dir lookupSLOKs env ids st).1.urlETags url = e) := by
  induction ids generalizing st with
  | nil =>
    exact ⟨⟨[], by simp [processOSLFiles]⟩, by simp [processOSLFiles],
      fun url => Or.inl (by simp [processOSLFiles])⟩
  | cons hd tl ih =>
    rw [processOSLFiles]
    obtain ⟨⟨l2, hent2⟩, hkv2, hetag2⟩ :=
      ih (processOSLFile cfg dir lookupSLOKs (env.files hd) hd st).1
    rcases processOSLFile_cases cfg dir lookupSLOKs (env.files hd) hd st
      with ⟨hst1, _⟩ | ⟨p, en, e, ok, hurl1, hkv1, hent1, _, htr1⟩
    · refine ⟨⟨l2, by rw [hent2, hst1]⟩, by rw [hkv2, hst1], fun url => ?_⟩
      rcases hetag2 url with heq | ⟨s, e, hmem, hval⟩
      · exact Or.inl (by rw [heq, hst1])
      · exact Or.inr ⟨s, e, List.mem_append_right _ hmem, hval⟩
    · refine ⟨⟨en ++ l2, by rw [hent2, hent1, List.append_assoc]⟩,
        by rw [hkv2, hkv1], fun url => ?_⟩
      rcases hetag2 url with heq | ⟨s, e', hmem, hval⟩
      · rw [heq, hurl1]
        by_cases hok : ok = true
        · subst hok
          rw [if_pos rfl]
          by_cases hu : url = cfg.remoteServerListUrl
          · subst hu
            refine Or.inr ⟨CommitSite.oslFile hd, e,
              List.mem_append_left _ ?_, getAssoc_setAssoc_self _ _ _⟩
            rw [htr1]
            simp
          · exact Or.inl (getAssoc_setAssoc_other _ _ _ _ hu)
        · rw [if_neg hok]
          exact Or.inl rfl
      · exact Or.inr ⟨s, e', List.mem_append_right _ hmem, hval⟩

/-- The sub-resource loop never records a directory-site ETag commit. -/
theorem processOSLFiles_no_dir_commit (cfg : Config) (dir : Directory)
    (lookupSLOKs : String → String) (env : OslEnv) (ids : List String)
    (st : DataStore) (u e : String) (b : Bool) :
    Event.commitETag CommitSite.oslDirectory u e b ∉
      (processOSLFiles cfg dir lookupSLOKs env ids st).2.1 := by
  induction ids generalizing st with
  | nil => simp [processOSLFiles]
  | cons hd tl ih =>
    rw [processOSLFiles]
    intro hmem
    rcases List.mem_append.mp hmem with h1 | h2
    · rcases processOSLFile_cases cfg dir lookupSLOKs (env.files hd) hd st
        with ⟨_, htr⟩ | ⟨p, en, e', ok, _, _, _, _, htr⟩
      · rw [htr] at h1
        simp at h1
      · rw [htr] at h1
        simp at h1
    · exact ih _ h2

/-- The loop distributes over list append: the identifiers after any point
are processed from whatever state the earlier ones left, with traces
concatenated and failure flags or-combined. -/
theorem processOSLFiles_append (cfg : Config) (dir : Directory)
    (lookupSLOKs : String → String) (env : OslEnv) (pre post : List String)
    (st : DataStore) :
    processOSLFiles cfg dir lookupSLOKs env (pre ++ post) st =
      ((processOSLFiles cfg dir lookupSLOKs env post
          (processOSLFiles cfg dir lookupSLOKs env pre st).1).1,
       (processOSLFiles cfg dir lookupSLOKs env pre st).2.1 ++
         (processOSLFiles cfg dir lookupSLOKs env post
           (processOSLFiles cfg dir lookupSLOKs env pre st).1).2.1,
       (processOSLFiles cfg dir lookupSLOKs env pre st).2.2 ||
         (processOSLFiles cfg dir lookupSLOKs env post
           (processOSLFiles cfg dir lookupSLOKs env pre st).1).2.2) := by
  induction pre generalizing st with
  | nil => simp [processOSLFiles]
  | cons hd tl ih =>
    simp only [List.cons_append, processOSLFiles, List.append_eq]
    rw [ih]
    simp [List.append_assoc, Bool.or_assoc]

/-- The post-fallback phase always records its unlock query, and every
error the query reported through the sink appears as a logged alert. -/
theorem finishWithDirectory_query (cfg : Config) (env : OslEnv)
    (st : DataStore) (tr : List Event) (failed : Bool) (dir : Directory) :
    ∃ ids errs,
      Event.queryUnlockable ids errs ∈
        (finishWithDirectory cfg env st tr failed dir).2.1 ∧
      ∀ m ∈ errs, Event.alert m ∈
        (finishWithDirectory cfg env st tr failed dir).2.1 := by
  refine ⟨(dir.getSeededOSLIDs env.getSLOK).1, (dir.getSeededOSLIDs env.getSLOK).2,
    ?_, fun m hm => ?_⟩
  · rw [finishWithDirectory]
    simp [List.mem_append]
  · rw [finishWithDirectory]
    simp only [List.mem_append]
    exact Or.inl (Or.inl (Or.inr (List.mem_map_of_mem Event.alert hm)))

/-- Claim C8: after all unlockable identifiers are processed, the gated
synchronization call returns failure (the aggregate error) iff the `failed`
flag was set at any point — `failed` carries the directory-phase flag into
`finishWithDirectory` on every non-fatal path of `FetchObfuscatedServerLists`,
and the loop flag or-accumulates every sub-resource failure — and otherwise
returns success; and a failure result undoes nothing: merged entries are only
appended to, the directory cache is untouched, and a URL's stored ETag
changes only to a value whose successful commit the trace records. -/
theorem aggregateFailureReporting (cfg : Config) (env : OslEnv)
    (st : DataStore) (tr : List Event) (failed : Bool) (dir : Directory) :
    ((finishWithDirectory cfg env st tr failed dir).2.2 = OslResult.aggregateError ↔
      (failed = true ∨
        (processOSLFiles cfg dir env.getSLOK env
          (dir.getSeededOSLIDs env.getSLOK).1 st).2.2 = true)) ∧
    ((finishWithDirectory cfg env st tr failed dir).2.2 = OslResult.success ↔
      (failed = false ∧
        (processOSLFiles cfg dir env.getSLOK env
          (dir.getSeededOSLIDs env.getSLOK).1 st).2.2 = false)) ∧
    (∃ l, (finishWithDirectory cfg env st tr failed dir).1.serverEntries =
      st.serverEntries ++ l) ∧
    (finishWithDirectory cfg env st tr failed dir).1.keyValues = st.keyValues ∧
    (∀ url,
      getAssoc (finishWithDirectory cfg env st tr failed dir).1.urlETags url =
        getAssoc st.urlETags url ∨
      ∃ s e, Event.commitETag s url e true ∈
          (finishWithDirectory cfg env st tr failed dir).2.1 ∧
        getAssoc (finishWithDirectory cfg env st tr failed dir).1.urlETags url = e) := by
  obtain ⟨⟨l, hent⟩, hkv, hetag⟩ :=
    processOSLFiles_notUndone cfg dir env.getSLOK env
      (dir.getSeededOSLIDs env.getSLOK).1 st
  rw [finishWithDirectory]
  refine ⟨?_, ?_, ⟨l, hent⟩, hkv, fun url => ?_⟩
  · by_cases hf : (failed || (processOSLFiles cfg dir env.getSLOK env
        (dir.getSeededOSLIDs env.getSLOK).1 st).2.2) = true
    · simp only [hf, if_pos]
      simp only [Bool.or_eq_true] at hf
      simpa using hf
    · simp only [hf, if_neg, Bool.not_eq_true]
      simp only [Bool.or_eq_true, not_or, Bool.not_eq_true] at hf
      constructor
      · intro hcon
        exact OslResult.noConfusion hcon
      · intro hcon
        rcases hcon with hcon1 | hcon2
        · rw [hf.1] at hcon1
          exact Bool.noConfusion hcon1
        · rw [hf.2] at hcon2
          exact Bool.noConfusion hcon2
  · by_cases hf : (failed || (processOSLFiles cfg dir env.getSLOK env
        (dir.getSeededOSLIDs env.getSLOK).1 st).2.2) = true
    · simp only [hf, if_pos]
      simp only [Bool.or_eq_true] at hf
      constructor
      · intro hcon
        exact OslResult.noConfusion hcon
      · rintro ⟨hc1, hc2⟩
        rcases hf with hf1 | hf2
        · rw [hc1] at hf1
          exact Bool.noConfusion hf1
        · rw [hc2] at hf2
          exact Bool.noConfusion hf2
    · simp only [hf, if_neg]
      simp only [Bool.or_eq_true, not_or, Bool.not_eq_true] at hf
      exact ⟨fun _ => ⟨hf.1, hf.2⟩, fun _ => rfl⟩
  · rcases hetag url with heq | ⟨s, e, hmem, hval⟩
    · exact Or.inl heq
    · exact Or.inr ⟨s, e, List.mem_append_right _ hmem, hval⟩

/-- Claim C1: the claim says every ETag commit is keyed by the URL of the
resource that was fetched.  The common-list synchronizer does key its commit
by the fetched URL, but on a successful gated cycle the code commits both the
directory's new ETag and the sub-resource's new ETag under
`config.RemoteServerListUrl` — the common list's URL — which differs from the
directory's URL and from the sub-resource's URL, contradicting the claim and
the code's own stated purpose of skipping re-downloads. -/
theorem etagCommitKeying_bug :
    Event.commitETag CommitSite.commonList "https://common.example/list" "b2" true
        ∈ (FetchCommonRemoteServerList cfg0 cenv2 st0).2.1 ∧
    Event.commitETag CommitSite.oslDirectory "https://common.example/list" "d1" true
        ∈ (FetchObfuscatedServerLists cfg0 env4 st0).2.1 ∧
    Event.commitETag (CommitSite.oslFile "ab") "https://common.example/list" "e1" true
        ∈ (FetchObfuscatedServerLists cfg0 env4 st0).2.1 ∧
    GetOSLDirectoryURL cfg0.obfuscatedServerListRootURL ≠ "https://common.example/list" ∧
    GetOSLFileURL cfg0.obfuscatedServerListRootURL "ab" ≠ "https://common.example/list" := by
  decide

/-- Claim C2: the claim says a failure to persist a new ETag after a
successful merge never causes the synchronization call to return failure.
For a gated sub-resource the code sets the aggregate `failed` flag when
`SetUrlETag` fails after a successful merge — despite its own comment that
the fetch is still reported as a success — so the whole call returns the
aggregate error. -/
theorem oslETagCommitFailureFailsCycle_bug :
    Event.merged "payload" ∈ (FetchObfuscatedServerLists cfg0 env2 st0).2.1 ∧
    Event.commitETag (CommitSite.oslFile "ab") "https://common.example/list" "e1" false
        ∈ (FetchObfuscatedServerLists cfg0 env2 st0).2.1 ∧
    (FetchObfuscatedServerLists cfg0 env2 st0).2.2 = OslResult.aggregateError := by
  decide

/-- Claim C3: the claim says the stored ETag for a resource is written only
after that resource's payload has been unpacked, validated and merged.  On a
clean gated cycle with no unlockable sub-resource, the stored ETag of the
common-list resource advances from `a1` to `d1` (because the directory commit
is keyed by the common list's URL) although nothing was merged into the entry
store at all and the common list was never fetched in this execution: the
trace holds no `merged` event. -/
theorem etagAdvancedWithoutMerge_bug :
    getAssoc st0.urlETags "https://common.example/list" = "a1" ∧
    getAssoc (FetchObfuscatedServerLists cfg0 env1 st0).1.urlETags
        "https://common.example/list" = "d1" ∧
    (FetchObfuscatedServerLists cfg0 env1 st0).1.serverEntries = [] ∧
    (FetchObfuscatedServerLists cfg0 env1 st0).2.1 =
      [Event.fetchAttempt "https://osl.example/osl-registry",
       Event.directoryCached "dirjson",
       Event.commitETag CommitSite.oslDirectory "https://common.example/list" "d1" true,
       Event.queryUnlockable [] []] ∧
    (FetchObfuscatedServerLists cfg0 env1 st0).2.2 = OslResult.success := by
  decide

/-- Claim C4: whatever collaborator outcomes the loop meets, a failing
iteration for identifier `k` sets the aggregate `failed` flag, and every
identifier after `k` still has its fetch attempted in the same cycle. -/
theorem gatedLoopIsolation (cfg : Config) (dir : Directory)
    (lookupSLOKs : String → String) (env : OslEnv) (pre post : List String)
    (k : String) (st : DataStore) (oslID : String) (hmem : oslID ∈ post)
    (hfail : (processOSLFile cfg dir lookupSLOKs (env.files k) k
        (processOSLFiles cfg dir lookupSLOKs env pre st).1).2.2 = true) :
    Event.fetchAttempt (GetOSLFileURL cfg.obfuscatedServerListRootURL oslID) ∈
      (processOSLFiles cfg dir lookupSLOKs env (pre ++ k :: post) st).2.1 ∧
    (processOSLFiles cfg dir lookupSLOKs env (pre ++ k :: post) st).2.2 = true := by
  rw [processOSLFiles_append]
  constructor
  · exact List.mem_append_right _
      (processOSLFiles_attempts cfg dir lookupSLOKs env (k :: post) _ oslID
        (List.mem_cons_of_mem k hmem))
  · show ((processOSLFiles cfg dir lookupSLOKs env pre st).2.2 || _) = true
    rw [processOSLFiles]
    dsimp only
    rw [hfail]
    simp

/-- Closed instance of `gatedLoopIsolation`: with the first identifier's
ETag commit failing after its merge, the second identifier is still fetched
and the aggregate flag ends set. -/
theorem gatedLoopIsolation_witness :
    Event.fetchAttempt (GetOSLFileURL cfg0.obfuscatedServerListRootURL "cd") ∈
      (processOSLFiles cfg0 oneDir env2.getSLOK env2 ([] ++ "ab" :: ["cd"]) st0).2.1 ∧
    (processOSLFiles cfg0 oneDir env2.getSLOK env2 ([] ++ "ab" :: ["cd"]) st0).2.2 = true :=
  gatedLoopIsolation cfg0 oneDir env2.getSLOK env2 [] ["cd"] "ab" st0 "cd"
    (by decide) (by decide)

/-- Claim C5: when the fresh-directory phase falls back and the cached
directory blob is unavailable (the lookup fails or yields a blank value),
the whole call returns the fatal cache-miss error and its entire trace is
the one directory fetch attempt: no gated sub-resource is attempted and the
store is untouched. -/
theorem fallbackNoCacheFatal (cfg : Config) (env : OslEnv) (st st' : DataStore)
    (tr : List Event) (f : Bool)
    (hfb : freshDirectoryStep cfg env st = FreshOutcome.fallbackWith st' tr f)
    (hnocache : env.getKeyValueOk = false ∨
      getAssoc st.keyValues DATA_STORE_OSL_DIRECTORY_KEY = "") :
    FetchObfuscatedServerLists cfg env st =
      (st, [Event.fetchAttempt (GetOSLDirectoryURL cfg.obfuscatedServerListRootURL)],
        OslResult.cacheMissError) := by
  obtain ⟨hst, htr⟩ := freshDirectoryStep_fallback_inv cfg env st st' tr f hfb
  subst hst
  subst htr
  rw [FetchObfuscatedServerLists, hfb]
  dsimp only
  rcases hnocache with hk | hblank
  · simp [hk]
  · by_cases hk : env.getKeyValueOk = true
    · simp [hk, hblank]
    · have hk' : env.getKeyValueOk = false := by
        revert hk
        cases env.getKeyValueOk <;> simp
      simp [hk']

/-- Closed instance of `fallbackNoCacheFatal`: an unchanged directory on a
first run with an empty store fails fatally after the single directory
fetch. -/
theorem fallbackNoCacheFatal_witness :
    FetchObfuscatedServerLists cfg0 env3 st0 =
      (st0, [Event.fetchAttempt (GetOSLDirectoryURL cfg0.obfuscatedServerListRootURL)],
        OslResult.cacheMissError) :=
  fallbackNoCacheFatal cfg0 env3 st0 st0
    [Event.fetchAttempt "https://osl.example/osl-registry"] false rfl
    (Or.inr rfl)

/-- Claim C6 counterexample: the claim's "empty new-ETag iff response ETag
equals the stored ETag" fails when the transport reports a blank response
ETag while a different ETag is stored: the fetch step returns a blank
new-ETag (reporting the resource unchanged) although the response ETag
differs from the stored one. -/
theorem fetchUnchangedIff_counterexample :
    downloadRemoteServerListFile (okFetch "") st0 "https://common.example/list" = some "" ∧
    getAssoc st0.urlETags "https://common.example/list" = "a1" ∧
    ("" : String) ≠ "a1" := by
  decide

/-- Claim C6 as amended: on a successful download, the fetch step returns a
blank new-ETag iff the response ETag equals the previously stored ETag for
the source URL or the response ETag is itself blank; and whenever it returns
a blank new-ETag the common-list synchronizer skips unpack, merge and commit
(its trace is the bare fetch attempt and the store is unchanged) and the
call counts as success. -/
theorem fetchUnchangedIff_amended (cfg : Config) (cenv : CommonEnv)
    (st : DataStore) (r : String)
    (h1 : cenv.fetch.makeClientOk = true) (h2 : cenv.fetch.getETagOk = true)
    (h3 : cenv.fetch.resumeResult = some r) :
    (downloadRemoteServerListFile cenv.fetch st cfg.remoteServerListUrl = some "" ↔
      (r = getAssoc st.urlETags cfg.remoteServerListUrl ∨ r = "")) ∧
    (downloadRemoteServerListFile cenv.fetch st cfg.remoteServerListUrl = some "" →
      FetchCommonRemoteServerList cfg cenv st =
        (st, [Event.fetchAttempt cfg.remoteServerListUrl], true)) := by
  have hok : downloadRemoteServerListFile cenv.fetch st cfg.remoteServerListUrl =
      (if r = getAssoc st.urlETags cfg.remoteServerListUrl then some ""
       else some r) := by
    simp [downloadRemoteServerListFile, h1, h2, h3]
  constructor
  · rw [hok]
    by_cases hr : r = getAssoc st.urlETags cfg.remoteServerListUrl
    · rw [if_pos hr]
      exact ⟨fun _ => Or.inl hr, fun _ => rfl⟩
    · rw [if_neg hr]
      constructor
      · intro h
        have hr0 : r = "" := by
          have := Option.some.injEq r ""
          rw [this] at h
          exact h
        exact Or.inr hr0
      · rintro (hl | hrr)
        · exact absurd hl hr
        · subst hrr
          rfl
  · intro hdl
    rw [FetchCommonRemoteServerList, hdl]
    dsimp only
    rw [if_pos rfl]

/-- Closed instance of `fetchUnchangedIff_amended`: with stored ETag `a1` and
response ETag `a1`, the fetch reports unchanged and the common synchronizer
succeeds doing nothing. -/
theorem fetchUnchangedIff_amended_witness :
    (downloadRemoteServerListFile cenv1.fetch st0 cfg0.remoteServerListUrl = some "" ↔
      ("a1" = getAssoc st0.urlETags cfg0.remoteServerListUrl ∨ "a1" = "")) ∧
    (downloadRemoteServerListFile cenv1.fetch st0 cfg0.remoteServerListUrl = some "" →
      FetchCommonRemoteServerList cfg0 cenv1 st0 =
        (st0, [Event.fetchAttempt cfg0.remoteServerListUrl], true)) :=
  fetchUnchangedIff_amended cfg0 cenv1 st0 "a1" rfl rfl rfl

/-- Claim C7: on every execution of the gated synchronizer that gets past
the fallback path (it does not return one of the two fatal directory
errors), the unlockable set is recomputed by invoking the directory's
unlock-query capability with the key-lookup function, and every error the
query reports through the error sink is logged as an alert. -/
theorem unlockQueryAlwaysRecomputed (cfg : Config) (env : OslEnv)
    (st : DataStore)
    (h1 : (FetchObfuscatedServerLists cfg env st).2.2 ≠ OslResult.cacheMissError)
    (h2 : (FetchObfuscatedServerLists cfg env st).2.2 ≠ OslResult.loadDirectoryError) :
    ∃ ids errs,
      Event.queryUnlockable ids errs ∈ (FetchObfuscatedServerLists cfg env st).2.1 ∧
      ∀ m ∈ errs, Event.alert m ∈ (FetchObfuscatedServerLists cfg env st).2.1 := by
  rcases hfo : freshDirectoryStep cfg env st with ⟨st1, tr, e, d⟩ | ⟨st1, tr, f⟩
  · rw [FetchObfuscatedServerLists, hfo]
    dsimp only
    by_cases hkv : env.setDirETagOk = true
    · rw [if_pos hkv]
      exact finishWithDirectory_query cfg env _ _ false d
    · rw [if_neg hkv]
      exact finishWithDirectory_query cfg env _ _ false d
  · rw [FetchObfuscatedServerLists, hfo] at h1 h2 ⊢
    dsimp only at h1 h2 ⊢
    by_cases hcond : (!env.getKeyValueOk) = true
    · rw [if_pos hcond] at h1
      exact absurd rfl h1
    · rw [if_neg hcond] at h1 h2 ⊢
      by_cases hb : getAssoc st1.keyValues DATA_STORE_OSL_DIRECTORY_KEY = ""
      · rw [if_pos hb] at h1
        exact absurd rfl h1
      · rw [if_neg hb] at h1 h2 ⊢
        rcases hld : env.loadDirectory
            (getAssoc st1.keyValues DATA_STORE_OSL_DIRECTORY_KEY) with _ | d
        · rw [hld] at h2
          exact absurd rfl h2
        · exact finishWithDirectory_query cfg env st1 tr f d

/-- Closed instance of `unlockQueryAlwaysRecomputed` at a clean fresh
cycle. -/
theorem unlockQueryAlwaysRecomputed_witness :
    ∃ ids errs,
      Event.queryUnlockable ids errs ∈ (FetchObfuscatedServerLists cfg0 env1 st0).2.1 ∧
      ∀ m ∈ errs, Event.alert m ∈ (FetchObfuscatedServerLists cfg0 env1 st0).2.1 :=
  unlockQueryAlwaysRecomputed cfg0 env1 st0 (by decide) (by decide)

/-- Claim C9: the gated cycle records a directory-site ETag commit iff the
fresh branch ran to completion: the directory download succeeded with a
changed (non-blank) ETag and the file read, unpack/verify and cache-persist
steps all succeeded.  On every other path — download failure, unchanged
directory, or any fresh-branch step failure — no directory ETag commit is
attempted. -/
theorem directoryETagCommitOnlyWhenCleanFresh (cfg : Config) (env : OslEnv)
    (st : DataStore) :
    (∃ u e b, Event.commitETag CommitSite.oslDirectory u e b ∈
        (FetchObfuscatedServerLists cfg env st).2.1) ↔
    (∃ t, downloadRemoteServerListFile env.dirFetch st
        (GetOSLDirectoryURL cfg.obfuscatedServerListRootURL) = some t ∧ t ≠ "" ∧
      ∃ c, env.dirReadFileResult = some c ∧
        (∃ d j, env.unpackDirectory c = some (d, j)) ∧
        env.setKeyValueOk = true) := by
  rw [← freshDirectoryStep_clean_iff]
  rcases hfo : freshDirectoryStep cfg env st with ⟨st1, tr, e, d⟩ | ⟨st1, tr, f⟩
  · constructor
    · intro _
      exact ⟨st1, tr, e, d, rfl⟩
    · intro _
      rw [FetchObfuscatedServerLists, hfo]
      dsimp only
      by_cases hkv : env.setDirETagOk = true
      · rw [if_pos hkv]
        refine ⟨cfg.remoteServerListUrl, e, true, ?_⟩
        rw [finishWithDirectory]
        simp [List.mem_append]
      · rw [if_neg hkv]
        refine ⟨cfg.remoteServerListUrl, e, false, ?_⟩
        rw [finishWithDirectory]
        simp [List.mem_append]
  · obtain ⟨hst, htr⟩ := freshDirectoryStep_fallback_inv cfg env st st1 tr f hfo
    constructor
    · rintro ⟨u, e, b, hmem⟩
      exfalso
      rw [FetchObfuscatedServerLists, hfo] at hmem
      dsimp only at hmem
      by_cases hcond : (!env.getKeyValueOk) = true
      · rw [if_pos hcond] at hmem
        dsimp only at hmem
        rw [htr] at hmem
        simp at hmem
      · rw [if_neg hcond] at hmem
        by_cases hb : getAssoc st1.keyValues DATA_STORE_OSL_DIRECTORY_KEY = ""
        · rw [if_pos hb] at hmem
          dsimp only at hmem
          rw [htr] at hmem
          simp at hmem
        · rw [if_neg hb] at hmem
          rcases hld : env.loadDirectory
              (getAssoc st1.keyValues DATA_STORE_OSL_DIRECTORY_KEY) with _ | d
          · rw [hld] at hmem
            dsimp only at hmem
            rw [htr] at hmem
            simp at hmem
          · rw [hld] at hmem
            dsimp only at hmem
            rw [finishWithDirectory] at hmem
            dsimp only at hmem
            rw [htr] at hmem
            simp only [List.mem_append, List.mem_singleton, List.mem_map] at hmem
            rcases hmem with ((h1 | ⟨a, _, h2⟩) | h3) | h4
            · exact Event.noConfusion h1
            · exact Event.noConfusion h2
            · exact Event.noConfusion h3
            · exact processOSLFiles_no_dir_commit cfg d env.getSLOK env _ st1 u e b h4
    · rintro ⟨st2, tr2, e2, d2, hcontra⟩
      exact FreshOutcome.noConfusion hcontra

/-- Claim C10: in the fallback path, a cached directory blob stored as the
blank string is treated exactly like a missing cache entry: although the
key/value lookup itself succeeded, the call fails with the same fatal
cache-miss error, touching nothing. -/
theorem blankCachedDirectoryIsCacheMiss (cfg : Config) (env : OslEnv)
    (st st' : DataStore) (tr : List Event) (f : Bool)
    (restKV : List (String × String))
    (hfb : freshDirectoryStep cfg env st = FreshOutcome.fallbackWith st' tr f)
    (hkv : env.getKeyValueOk = true)
    (hblank : st.keyValues = (DATA_STORE_OSL_DIRECTORY_KEY, "") :: restKV) :
    FetchObfuscatedServerLists cfg env st = (st, tr, OslResult.cacheMissError) := by
  obtain ⟨hst, htr⟩ := freshDirectoryStep_fallback_inv cfg env st st' tr f hfb
  have hga : getAssoc st.keyValues DATA_STORE_OSL_DIRECTORY_KEY = "" := by
    rw [hblank]
    simp [getAssoc]
  rw [FetchObfuscatedServerLists, hfb]
  dsimp only
  rw [hst, hkv]
  simp only [Bool.not_true]
  rw [if_neg (by simp), if_pos hga]

/-- Closed instance of `blankCachedDirectoryIsCacheMiss`: a store holding a
blank cached directory blob fails fatally on an unchanged directory. -/
theorem blankCachedDirectoryIsCacheMiss_witness :
    FetchObfuscatedServerLists cfg0 env3 st1 =
      (st1, [Event.fetchAttempt "https://osl.example/osl-registry"],
        OslResult.cacheMissError) :=
  blankCachedDirectoryIsCacheMiss cfg0 env3 st1 st1
    [Event.fetchAttempt "https://osl.example/osl-registry"] false [] rfl rfl rfl

end Psiphon
